import Mathlib

/-!
Shallow embedding of the gradient-descent optimizer core of gcla/sklearn.

The development covers:
* `SGDOptimizer` and its `GetUpdate` / `UpdateParams` / `SetTheta` /
  `GetTimeStep` contract (Go package `base`);
* the mini-batch training loop `LinFit` and the concurrent per-output path of
  `LinFitGOM` (Go package `linearModel`);
* the dataset generator `MakeRegression` (Go package `datasets`).

Modelling conventions:
* `float64` values are modelled by an abstract linear ordered field `α`;
  `math.Sqrt` is an explicit parameter `sqrt : α → α` so that every
  definition stays computable (theorems that need genuine square-root facts
  instantiate `α := ℝ`, `sqrt := Real.sqrt`).
* Go matrices (`mat.Dense`) of known shape become `Matrix (Fin r) (Fin c) α`.
* `TimeStep` is stored as a `float64` in Go but only ever holds whole numbers
  (it starts at 0 and is incremented by 1); it is modelled as `ℕ`, and
  `math.Pow(beta, TimeStep)` becomes `beta ^ TimeStep`.
* `math.Inf(1)` initial values (`J`, `JBest`, `rmse`) are modelled by
  `Option α` with `none` standing for `+Inf`; the Go comparison `x < Inf`
  (true for every finite `x`) becomes the `none` branch.
* external collaborators (the loss/gradient function, the row shuffler, the
  MSE metric, the gonum minimizer driven by `LinFitGOM`) are parameters of
  the model, mirroring the Go code where they are injected values.
-/

/-- Status of a gonum `optimize.Local` run, as observed by `LinFitGOM`
(only the distinction `Failure` versus anything else matters to the code). -/
inductive GonumStatus where
  | Success : GonumStatus
  | Failure : GonumStatus
  | IterationLimit : GonumStatus
deriving DecidableEq, Repr

section OptimizerModel

variable {α : Type} [LinearOrderedField α]

/-- State of `base.SGDOptimizer` (Go struct `SGDOptimizer`).  The matrix
fields that Go allocates lazily on the first call exist from the start and
are (re)initialized by `sgdAlloc` when `TimeStep = 0`, exactly as the
`if s.TimeStep == 0` block of `GetUpdate` does.  `GtNorm` is recomputed from
the gradient on every call before being read, so it is not part of the
modelled state. -/
structure SGDOptimizer (α : Type) (nF nO : ℕ) where
  StepSize : α
  Momentum : α
  GradientClipping : α
  RMSPropGamma : α
  Epsilon : α
  Adagrad : Bool
  Adadelta : Bool
  RMSProp : Bool
  Adam : Bool
  Theta : Matrix (Fin nF) (Fin nO) α
  PrevUpdate : Matrix (Fin nF) (Fin nO) α
  AdagradG : Matrix (Fin nF) (Fin nO) α
  AdadeltaU : Matrix (Fin nF) (Fin nO) α
  TimeStep : ℕ
  Beta1 : α
  Beta2 : α
  Mt : Matrix (Fin nF) (Fin nO) α
  Vt : Matrix (Fin nF) (Fin nO) α
  Mtcap : Matrix (Fin nF) (Fin nO) α
  Vtcap : Matrix (Fin nF) (Fin nO) α

variable {nF nO : ℕ}

/-- Go `NewSGDOptimizer`: step size `1e-4`, momentum `0.9`, gamma `0.9`,
epsilon `1e-8`; every other field is the Go zero value. -/
def NewSGDOptimizer : SGDOptimizer α nF nO :=
  { StepSize := 1 / 10000, Momentum := 9 / 10, GradientClipping := 0,
    RMSPropGamma := 9 / 10, Epsilon := 1 / 100000000,
    Adagrad := false, Adadelta := false, RMSProp := false, Adam := false,
    Theta := 0, PrevUpdate := 0, AdagradG := 0, AdadeltaU := 0,
    TimeStep := 0, Beta1 := 0, Beta2 := 0,
    Mt := 0, Vt := 0, Mtcap := 0, Vtcap := 0 }

/-- Go `NewAdagradOptimizer`. -/
def NewAdagradOptimizer : SGDOptimizer α nF nO :=
  { NewSGDOptimizer with
    StepSize := 1 / 2
    Momentum := 0
    Adagrad := true
    GradientClipping := 10 }

/-- Go `NewAdadeltaOptimizer`. -/
def NewAdadeltaOptimizer : SGDOptimizer α nF nO :=
  { NewSGDOptimizer with Momentum := 0, Adadelta := true }

/-- Go `NewRMSPropOptimizer`. -/
def NewRMSPropOptimizer : SGDOptimizer α nF nO :=
  { NewSGDOptimizer with
    StepSize := 1 / 20
    Momentum := 0
    RMSProp := true
    RMSPropGamma := 9 / 10 }

/-- Go `NewAdamOptimizer`: step size `.5`, `Beta1 = .9`, `Beta2 = .999`,
epsilon `1e-8`, `Adam` flag set; other fields are Go zero values. -/
def NewAdamOptimizer : SGDOptimizer α nF nO :=
  { StepSize := 1 / 2, Momentum := 0, GradientClipping := 0,
    RMSPropGamma := 0, Epsilon := 1 / 100000000,
    Adagrad := false, Adadelta := false, RMSProp := false, Adam := true,
    Theta := 0, PrevUpdate := 0, AdagradG := 0, AdadeltaU := 0,
    TimeStep := 0, Beta1 := 9 / 10, Beta2 := 999 / 1000,
    Mt := 0, Vt := 0, Mtcap := 0, Vtcap := 0 }

/-- Go `SetTheta`: binds the parameter matrix (the dimensions live in the
type indices of the model). -/
def SetTheta (s : SGDOptimizer α nF nO) (Theta : Matrix (Fin nF) (Fin nO) α) :
    SGDOptimizer α nF nO :=
  { s with Theta := Theta }

/-- Go `GetTimeStep`: `uint64(s.TimeStep)`. -/
def GetTimeStep (s : SGDOptimizer α nF nO) : ℕ := s.TimeStep

/-- Go `colNorm`: L2 norm of column `o`, `sqrt (Σ_j m[j,o]²)`. -/
def colNorm (sqrt : α → α) (m : Matrix (Fin nF) (Fin nO) α) (o : Fin nO) : α :=
  sqrt (∑ j : Fin nF, m j o * m j o)

/-- The `gradientClipped` closure of Go `GetUpdate`: entry `(j,o)` of the
gradient, scaled by `GradientClipping / ‖column o‖` when clipping is enabled
and the column norm exceeds the clip value. -/
def gradientClipped (clip : α) (sqrt : α → α)
    (grad : Matrix (Fin nF) (Fin nO) α) (j : Fin nF) (o : Fin nO) : α :=
  if 0 < clip ∧ clip < colNorm sqrt grad o then
    grad j o * (clip / colNorm sqrt grad o)
  else grad j o

/-- The `if s.TimeStep == 0` first-call allocation block of Go `GetUpdate`:
fresh zero buffers for `PrevUpdate` (always) and the Adam moments, the
`AdagradG` accumulator initialized to `Epsilon` for Adagrad/RMSProp/Adadelta,
and `AdadeltaU` initialized to `1` for Adadelta. -/
def sgdAlloc (s : SGDOptimizer α nF nO) : SGDOptimizer α nF nO :=
  if s.TimeStep = 0 then
    { s with
      PrevUpdate := 0,
      AdagradG := if s.Adagrad || s.RMSProp || s.Adadelta then
          Matrix.of fun _ _ => s.Epsilon
        else s.AdagradG,
      AdadeltaU := if s.Adadelta then Matrix.of fun _ _ => (1 : α)
        else s.AdadeltaU,
      Mt := if s.Adam then 0 else s.Mt,
      Vt := if s.Adam then 0 else s.Vt,
      Mtcap := if s.Adam then 0 else s.Mtcap,
      Vtcap := if s.Adam then 0 else s.Vtcap }
  else s

/-- Tail of Go `GetUpdate`: the momentum blend
(`update = Momentum*PrevUpdate + update` when `Momentum > 0`) followed by
`s.PrevUpdate.Clone(update)`.  Returns the final update matrix and state. -/
def momentumFinish (s : SGDOptimizer α nF nO)
    (update : Matrix (Fin nF) (Fin nO) α) :
    Matrix (Fin nF) (Fin nO) α × SGDOptimizer α nF nO :=
  let u := if 0 < s.Momentum then
      Matrix.of fun j o => s.Momentum * s.PrevUpdate j o + update j o
    else update
  (u, { s with PrevUpdate := u })

/-- Go `GetUpdate`: computes the update matrix from the gradient and returns
it together with the mutated optimizer state.  Follows the source line by
line: lazy allocation at `TimeStep == 0`, `TimeStep += 1`, the time-decayed
`eta`, per-column gradient clipping, then the `RMSProp` / `Adagrad` /
`Adadelta` / `Adam` / plain-SGD branch chain, and finally the momentum blend
and `PrevUpdate` clone. -/
def GetUpdate (sqrt : α → α) (s0 : SGDOptimizer α nF nO)
    (grad : Matrix (Fin nF) (Fin nO) α) :
    Matrix (Fin nF) (Fin nO) α × SGDOptimizer α nF nO :=
  let sa := sgdAlloc s0
  let s : SGDOptimizer α nF nO := { sa with TimeStep := sa.TimeStep + 1 }
  let t : ℕ := s.TimeStep
  let eta : α := s.StepSize * 100 / (100 + (t : α))
  let gc : Fin nF → Fin nO → α := gradientClipped s.GradientClipping sqrt grad
  if s.RMSProp then
    let update : Matrix (Fin nF) (Fin nO) α := Matrix.of fun j o =>
      -(if 1 < t ∧ 1 < |s.AdagradG j o| then
          s.StepSize / sqrt (s.AdagradG j o + s.Epsilon)
        else s.StepSize) * gc j o
    let G : Matrix (Fin nF) (Fin nO) α := Matrix.of fun j o =>
      s.AdagradG j o * s.RMSPropGamma + (1 - s.RMSPropGamma) * gc j o * gc j o
    momentumFinish { s with AdagradG := G } update
  else if s.Adagrad then
    let update : Matrix (Fin nF) (Fin nO) α := Matrix.of fun j o =>
      -(if 1 < t then s.StepSize / (sqrt (s.AdagradG j o) + s.Epsilon)
        else s.StepSize) * gc j o
    let G : Matrix (Fin nF) (Fin nO) α := Matrix.of fun j o =>
      s.AdagradG j o + gc j o * gc j o
    momentumFinish { s with AdagradG := G } update
  else if s.Adadelta then
    let G : Matrix (Fin nF) (Fin nO) α := Matrix.of fun j o =>
      s.RMSPropGamma * s.AdagradG j o + (1 - s.RMSPropGamma) * gc j o * gc j o
    let update : Matrix (Fin nF) (Fin nO) α := Matrix.of fun j o =>
      -(if 1 < t then sqrt (s.AdadeltaU j o) / sqrt (G j o + s.Epsilon)
        else eta) * gc j o
    let U : Matrix (Fin nF) (Fin nO) α := Matrix.of fun j o =>
      s.RMSPropGamma * s.AdadeltaU j o +
        (1 - s.RMSPropGamma) * update j o * update j o
    momentumFinish { s with AdagradG := G, AdadeltaU := U } update
  else if s.Adam then
    let Mt : Matrix (Fin nF) (Fin nO) α := Matrix.of fun j o =>
      s.Beta1 * s.Mt j o + (1 - s.Beta1) * gc j o
    let Vt : Matrix (Fin nF) (Fin nO) α := Matrix.of fun j o =>
      s.Beta2 * s.Vt j o + (1 - s.Beta2) * gc j o * gc j o
    let Mtcap : Matrix (Fin nF) (Fin nO) α := Matrix.of fun j o =>
      1 / (1 - s.Beta1 ^ t) * Mt j o
    let Vtcap : Matrix (Fin nF) (Fin nO) α := Matrix.of fun j o =>
      1 / (1 - s.Beta2 ^ t) * Vt j o
    let update : Matrix (Fin nF) (Fin nO) α := Matrix.of fun j o =>
      -s.StepSize * Mtcap j o / (sqrt (Vtcap j o) + s.Epsilon)
    momentumFinish { s with Mt := Mt, Vt := Vt, Mtcap := Mtcap, Vtcap := Vtcap }
      update
  else
    let update : Matrix (Fin nF) (Fin nO) α := Matrix.of fun j o =>
      -eta * gc j o / sqrt ((t : α))
    momentumFinish s update

/-- Go `UpdateParams`: `GetUpdate` followed by `Theta.Add(Theta, Update)`. -/
def UpdateParams (sqrt : α → α) (s : SGDOptimizer α nF nO)
    (grad : Matrix (Fin nF) (Fin nO) α) : SGDOptimizer α nF nO :=
  let r := GetUpdate sqrt s grad
  { r.2 with Theta := r.2.Theta + r.1 }

/-- A sequence of `UpdateParams` calls, one per gradient in the list. -/
def applyUpdates (sqrt : α → α) (s : SGDOptimizer α nF nO)
    (gs : List (Matrix (Fin nF) (Fin nO) α)) : SGDOptimizer α nF nO :=
  gs.foldl (UpdateParams sqrt) s

end OptimizerModel

section LinFitModel

variable {α : Type} [LinearOrderedField α]
variable {ς : Type} {nS nF nO : ℕ}

/-- The numeric fields of `linearModel.LinFitOptions` that the mini-batch
training loop reads.  The injected collaborators (solver, loss, activation,
recorder, shuffler) are carried by `LinFitEnv` instead. -/
structure LinFitOptions (α : Type) where
  Epochs : ℤ
  MiniBatchSize : ℤ
  Tol : α
  Alpha : α
  L1Ratio : α

/-- The result struct `linearModel.LinFitResult`.  `RMSE` and `J` are
`Option` valued because Go initializes them to `math.Inf(1)` (`none`). -/
structure LinFitResult (α : Type) (nF nO : ℕ) where
  Converged : Bool
  RMSE : Option α
  J : Option α
  Epoch : ℕ
  Theta : Matrix (Fin nF) (Fin nO) α

/-- The external collaborators `LinFit` is driven with, mirroring the values
the Go code receives through `opts` and package imports:
* `solver0`, `setTheta`, `updateParams`, `getTheta`: the injected
  `base.Optimizer` (`opts.Solver`), with its mutable state abstracted as `ς`;
* `shuffle`: `base.MatShuffle`, one joint row permutation per epoch drawn
  from the injected random source;
* `loss`: the effective loss/gradient function (`opts.Loss`, defaulted by the
  code to `SquareLoss` when nil; the activation argument is folded in).  For
  a row-slice of size `nR` it returns the loss value `J` and the filled
  `Ypred` and `grad` buffers;
* `mse`: `metrics.MeanSquaredError(Ytrue, Ypred, nil, "").At(0,0)`;
* `sqrt`: `math.Sqrt`. -/
structure LinFitEnv (α ς : Type) (nS nF nO : ℕ) where
  solver0 : ς
  setTheta : ς → Matrix (Fin nF) (Fin nO) α → ς
  updateParams : ς → Matrix (Fin nF) (Fin nO) α → ς
  getTheta : ς → Matrix (Fin nF) (Fin nO) α
  shuffle : ℕ → Equiv.Perm (Fin nS)
  loss : (nR : ℕ) → Matrix (Fin nR) (Fin nO) α → Matrix (Fin nR) (Fin nF) α →
    Matrix (Fin nF) (Fin nO) α → α → α → ℕ →
    α × Matrix (Fin nR) (Fin nO) α × Matrix (Fin nF) (Fin nO) α
  mse : Matrix (Fin nS) (Fin nO) α → Matrix (Fin nS) (Fin nO) α → α
  sqrt : α → α

/-- Effective epoch budget of `LinFit`:
`if opts.Epochs <= 0 { opts.Epochs = 1e6 / nSamples }` (Go integer
division). -/
def effectiveEpochs (nS : ℕ) (e : ℤ) : ℤ :=
  if e ≤ 0 then ((1000000 / nS : ℕ) : ℤ) else e

/-- Default mini-batch size of `LinFit`:
`int(math.Max(1., math.Min(100., math.Sqrt(float64(nSamples)))))`.
For the integer sample counts involved, truncating the correctly rounded
`float64` square root coincides with `Nat.sqrt`. -/
def defaultMiniBatch (nS : ℕ) : ℕ := max 1 (min 100 (Nat.sqrt nS))

/-- Effective mini-batch size of `LinFit`: the caller's value when positive,
else `defaultMiniBatch`, and in both cases the final clamp
`int(math.Max(1., math.Min(float64(nSamples), float64(miniBatchSize))))`. -/
def effectiveMiniBatch (nS : ℕ) (m : ℤ) : ℕ :=
  let m1 : ℤ := if 0 < m then m else (defaultMiniBatch nS : ℤ)
  (max 1 (min (nS : ℤ) m1)).toNat

/-- Row slice `A.Slice(lo, hi, 0, nC)` of a dense matrix (`hi ≤ nS`). -/
def sliceRows (A : Matrix (Fin nS) (Fin nF) α) (lo hi : ℕ) (h : hi ≤ nS) :
    Matrix (Fin (hi - lo)) (Fin nF) α :=
  Matrix.of fun r c => A ⟨lo + r.val, by omega⟩ c

/-- Number of iterations of the Go loop
`for miniBatch := 0; miniBatch*miniBatchSize < nSamples; miniBatch++`. -/
def nBatches (nS bs : ℕ) : ℕ := (nS + bs - 1) / bs

/-- One iteration of the mini-batch loop body of `LinFit`: the loss function
computes the mini-batch gradient (into the shared `grad` buffer) and
`s.UpdateParams(grad)` mutates the solver state (and with it Theta). -/
def miniBatchStep (env : LinFitEnv α ς nS nF nO) (opts : LinFitOptions α)
    (bs : ℕ) (X : Matrix (Fin nS) (Fin nF) α) (Y : Matrix (Fin nS) (Fin nO) α)
    (s : ς) (m : ℕ) : ς :=
  let lo := m * bs
  let hi := min (lo + bs) nS
  let r := env.loss (hi - lo) (sliceRows Y lo hi (min_le_right _ _))
    (sliceRows X lo hi (min_le_right _ _)) (env.getTheta s)
    opts.Alpha opts.L1Ratio nS
  env.updateParams s r.2.2

/-- State threaded through the epoch loop of `LinFit`: the (shuffled in
place) data, the solver (owning Theta), the best-seen objective and its
Theta snapshot (`JBest`, `thetaSliceBest`), the last full-dataset `rmse`,
the `converged` flag and the `epoch` counter. -/
structure FitLoopState (α ς : Type) (nS nF nO : ℕ) where
  X : Matrix (Fin nS) (Fin nF) α
  Y : Matrix (Fin nS) (Fin nO) α
  solver : ς
  JBest : Option α
  thetaBest : Matrix (Fin nF) (Fin nO) α
  rmse : Option α
  converged : Bool
  epoch : ℕ

/-- Rows of `X` after this epoch's joint shuffle (`base.MatShuffle`). -/
def epochShufX (env : LinFitEnv α ς nS nF nO) (st : FitLoopState α ς nS nF nO) :
    Matrix (Fin nS) (Fin nF) α :=
  Matrix.of fun i j => st.X (env.shuffle st.epoch i) j

/-- Rows of `Y` after this epoch's joint shuffle. -/
def epochShufY (env : LinFitEnv α ς nS nF nO) (st : FitLoopState α ς nS nF nO) :
    Matrix (Fin nS) (Fin nO) α :=
  Matrix.of fun i o => st.Y (env.shuffle st.epoch i) o

/-- Solver state after this epoch's pass over all mini-batches. -/
def epochSolver (env : LinFitEnv α ς nS nF nO) (opts : LinFitOptions α)
    (bs : ℕ) (st : FitLoopState α ς nS nF nO) : ς :=
  (List.range (nBatches nS bs)).foldl
    (miniBatchStep env opts bs (epochShufX env st) (epochShufY env st))
    st.solver

/-- The full-dataset loss call made after the mini-batches of an epoch. -/
def epochFullLoss (env : LinFitEnv α ς nS nF nO) (opts : LinFitOptions α)
    (bs : ℕ) (st : FitLoopState α ς nS nF nO) :
    α × Matrix (Fin nS) (Fin nO) α × Matrix (Fin nF) (Fin nO) α :=
  env.loss nS (epochShufY env st) (epochShufX env st)
    (env.getTheta (epochSolver env opts bs st)) opts.Alpha opts.L1Ratio nS

/-- Full-dataset objective `J` observed at the end of this epoch. -/
def epochJ (env : LinFitEnv α ς nS nF nO) (opts : LinFitOptions α)
    (bs : ℕ) (st : FitLoopState α ς nS nF nO) : α :=
  (epochFullLoss env opts bs st).1

/-- Full-dataset mean squared error computed at the end of this epoch. -/
def epochMSE (env : LinFitEnv α ς nS nF nO) (opts : LinFitOptions α)
    (bs : ℕ) (st : FitLoopState α ς nS nF nO) : α :=
  env.mse (epochShufY env st) (epochFullLoss env opts bs st).2.1

/-- One epoch of `LinFit`: shuffle, mini-batch updates, full-dataset loss,
best-`J` snapshot (`if J < JBest { JBest = J; copy(thetaSliceBest, ...) }`),
`rmse = sqrt(MSE)`, convergence test `math.Sqrt(rmse) < opts.Tol`, and the
`epoch++` of the for statement. -/
def epochBody (env : LinFitEnv α ς nS nF nO) (opts : LinFitOptions α)
    (bs : ℕ) (st : FitLoopState α ς nS nF nO) : FitLoopState α ς nS nF nO :=
  let s := epochSolver env opts bs st
  let J := epochJ env opts bs st
  let improved : Bool := match st.JBest with
    | none => true
    | some b => decide (J < b)
  let r := env.sqrt (epochMSE env opts bs st)
  { X := epochShufX env st
    Y := epochShufY env st
    solver := s
    JBest := if improved then some J else st.JBest
    thetaBest := if improved then env.getTheta s else st.thetaBest
    rmse := some r
    converged := decide (env.sqrt r < opts.Tol)
    epoch := st.epoch + 1 }

/-- The epoch loop `for epoch = 1; epoch <= opts.Epochs && !converged;`:
`n` is the number of epochs the budget still allows. -/
def fitLoop (env : LinFitEnv α ς nS nF nO) (opts : LinFitOptions α)
    (bs : ℕ) (st : FitLoopState α ς nS nF nO) : ℕ → FitLoopState α ς nS nF nO
  | 0 => st
  | n + 1 =>
    if st.converged then st
    else fitLoop env opts bs (epochBody env opts bs st) n

/-- Number of epoch bodies the loop `fitLoop` actually executes when `n`
epochs of budget remain: the least count at which the `converged` flag stops
the loop, capped at `n`. -/
def stopCount (env : LinFitEnv α ς nS nF nO) (opts : LinFitOptions α)
    (bs : ℕ) (st : FitLoopState α ς nS nF nO) : ℕ → ℕ
  | 0 => 0
  | n + 1 =>
    if st.converged then 0
    else stopCount env opts bs (epochBody env opts bs st) n + 1

/-- Initial loop state of `LinFit`: `JBest = rmse = math.Inf(1)`, the
best-Theta buffer `thetaSliceBest` zero-initialized, `converged = false`,
and the solver bound to Theta by `s.SetTheta(Theta)`. -/
def initialFitState (env : LinFitEnv α ς nS nF nO)
    (X : Matrix (Fin nS) (Fin nF) α) (Y : Matrix (Fin nS) (Fin nO) α)
    (theta0 : Matrix (Fin nF) (Fin nO) α) : FitLoopState α ς nS nF nO :=
  { X := X, Y := Y, solver := env.setTheta env.solver0 theta0,
    JBest := none, thetaBest := 0, rmse := none, converged := false,
    epoch := 1 }

/-- Packaging of the final loop state into the returned `LinFitResult`:
`J = JBest`, `Theta = mat.NewDense(..., thetaSliceBest)`. -/
def mkFitResult (st : FitLoopState α ς nS nF nO) : LinFitResult α nF nO :=
  { Converged := st.converged, RMSE := st.rmse, J := st.JBest,
    Epoch := st.epoch, Theta := st.thetaBest }

/-- The mini-batch path of `linearModel.LinFit` (taken when a `base.Optimizer`
solver is supplied and no gonum method creator is, so the function does not
dispatch to `LinFitGOM`).  `theta0` is the initialized parameter matrix
(the caller's initializer, or the default small uniform random fill). -/
def LinFit (env : LinFitEnv α ς nS nF nO)
    (X : Matrix (Fin nS) (Fin nF) α) (Y : Matrix (Fin nS) (Fin nO) α)
    (theta0 : Matrix (Fin nF) (Fin nO) α) (opts : LinFitOptions α) :
    LinFitResult α nF nO :=
  let bs := effectiveMiniBatch nS opts.MiniBatchSize
  let stF := fitLoop env opts bs (initialFitState env X Y theta0)
    (effectiveEpochs nS opts.Epochs).toNat
  mkFitResult stF

/-- The loop state reached after `k` unconditional epoch bodies of a
`LinFit` run (ignoring the early-exit test; the theorems relate the actual
run to these states through `stopCount`). -/
def linFitEpochState (env : LinFitEnv α ς nS nF nO)
    (X : Matrix (Fin nS) (Fin nF) α) (Y : Matrix (Fin nS) (Fin nO) α)
    (theta0 : Matrix (Fin nF) (Fin nO) α) (opts : LinFitOptions α) (k : ℕ) :
    FitLoopState α ς nS nF nO :=
  (epochBody env opts (effectiveMiniBatch nS opts.MiniBatchSize))^[k]
    (initialFitState env X Y theta0)

end LinFitModel

section GOMModel

variable {α : Type} [LinearOrderedField α]
variable {nF nO : ℕ}

/-- The fields of a gonum `optimize.Result` read by `LinFitGOM`. -/
structure GonumResult (α : Type) (nF : ℕ) where
  X : Fin nF → α
  F : α
  FuncEvaluations : ℕ
  Status : GonumStatus

/-- What one column's worker sends on the result channel (`fitOutputRes`):
the `optimize.Local` result and whether `optimize.Local` returned a non-nil
error.  The collection loop reads only `foret.o` and `foret.ret`; the
`foret.err` field is never examined. -/
structure GonumColResult (α : Type) (nF : ℕ) where
  ret : GonumResult α nF
  errNonNil : Bool

/-- `thetaM.SetCol(o, v)`. -/
def setCol (M : Matrix (Fin nF) (Fin nO) α) (o : Fin nO) (v : Fin nF → α) :
    Matrix (Fin nF) (Fin nO) α :=
  Matrix.of fun j o' => if o' = o then v j else M j o'

/-- The per-output (concurrent) path of `linearModel.LinFitGOM`.
`colRes o` is what column `o`'s worker produced (the external minimizer is a
collaborator of the model); `arrival` is the order in which the collection
loop receives results from the channel.  Mirrors the source:

* the collection fold performs `thetaM.SetCol(foret.o, ret.X)`,
  `rmse += ret.F`, `epoch += ret.FuncEvaluations` and
  `converged = converged && ret.Status != optimize.Failure` starting from
  `converged = true`;
* then `rmse = math.Sqrt(rmse) / float64(nOutputs)`;
* after the branch the function executes `converged = err == nil`, where the
  outer `err` was never assigned on this path (each worker's error was
  shadowed and dropped), so the folded flag is overwritten by `true`;
* the returned `LinFitResult` leaves `J` at its zero value. -/
def LinFitGOMPerOutput (sqrt : α → α) (colRes : Fin nO → GonumColResult α nF)
    (arrival : Equiv.Perm (Fin nO)) (thetaM0 : Matrix (Fin nF) (Fin nO) α) :
    LinFitResult α nF nO :=
  let collect := ((List.finRange nO).map arrival).foldl
    (fun (acc : Matrix (Fin nF) (Fin nO) α × α × ℕ × Bool) o =>
      let ret := (colRes o).ret
      (setCol acc.1 o ret.X, acc.2.1 + ret.F, acc.2.2.1 + ret.FuncEvaluations,
        acc.2.2.2 && decide (ret.Status ≠ GonumStatus.Failure)))
    (thetaM0, 0, 0, true)
  let rmse := sqrt collect.2.1 / (nO : α)
  let outerErr : Option Unit := none
  let converged : Bool := decide (outerErr = none)
  { Converged := converged, RMSE := some rmse, J := some 0,
    Epoch := collect.2.2.1, Theta := collect.1 }

/-- The per-column `converged` conjunction that the collection loop of
`LinFitGOMPerOutput` accumulates (the logical AND, over all columns, of the
column's minimizer not reporting `Failure`) — the value the aggregate
`Converged` is specified to equal. -/
def gomConvergedAnd (colRes : Fin nO → GonumColResult α nF) : Bool :=
  (List.finRange nO).all fun o =>
    decide ((colRes o).ret.Status ≠ GonumStatus.Failure)

end GOMModel

section MakeRegressionModel

variable {α : Type} [LinearOrderedField α]

/-- The `bias` kwarg of `datasets.MakeRegression`: the Go type switch
accepts a `float64`, a `mat.Matrix` (only row 0 is read) or a `[]float64`. -/
inductive BiasKwarg (α : Type) where
  | scalar (b : α) : BiasKwarg α
  | matrixB (B : ℕ → ℕ → α) : BiasKwarg α
  | vector (v : ℕ → α) : BiasKwarg α

/-- The kwargs map of `MakeRegression`, restricted to the keys the function
reads (`random_state` is modelled by the draw stream `rnd` below;
`shuffle` is never read by the source). -/
structure MakeRegressionKwargs (α : Type) where
  n_samples : Option ℕ
  n_features : Option ℕ
  n_informative : Option ℕ
  n_targets : Option ℕ
  bias : Option (BiasKwarg α)

/-- `nSamples` after kwargs handling (default 100). -/
def mrNSamples (kw : MakeRegressionKwargs α) : ℕ := kw.n_samples.getD 100

/-- `nFeatures` after kwargs handling (default 100). -/
def mrNFeatures (kw : MakeRegressionKwargs α) : ℕ := kw.n_features.getD 100

/-- `nInformative` as read from kwargs (default 10), before clamping. -/
def mrNInformative0 (kw : MakeRegressionKwargs α) : ℕ :=
  kw.n_informative.getD 10

/-- `nTargets` after kwargs handling (default 1). -/
def mrNTargets (kw : MakeRegressionKwargs α) : ℕ := kw.n_targets.getD 1

/-- The clamp `if nInformative > nFeatures { nInformative = nFeatures }`. -/
def mrNInformative (kw : MakeRegressionKwargs α) : ℕ :=
  if mrNFeatures kw < mrNInformative0 kw then mrNFeatures kw
  else mrNInformative0 kw

/-- The `X` matrix of `MakeRegression`: `nSamples × nFeatures`, filled
row-major with consecutive draws from the normal generator, modelled as the
stream `rnd` (draw number `i*nFeatures + j` lands at entry `(i,j)`; the raw
buffer of a fresh `mat.Dense` has stride `nFeatures`). -/
def MakeRegressionX (kw : MakeRegressionKwargs α) (rnd : ℕ → α) :
    Matrix (Fin (mrNSamples kw)) (Fin (mrNFeatures kw)) α :=
  Matrix.of fun i j => rnd (i.val * mrNFeatures kw + j.val)

/-- The `Coef` matrix of `MakeRegression`: `nInformative × nTargets`, filled
row-major with the draws following those used for `X`. -/
def MakeRegressionCoef (kw : MakeRegressionKwargs α) (rnd : ℕ → α) :
    Matrix (Fin (mrNInformative kw)) (Fin (mrNTargets kw)) α :=
  Matrix.of fun i j =>
    rnd (mrNSamples kw * mrNFeatures kw + (i.val * mrNTargets kw + j.val))

/-- The inclusion of the first `nInformative` column indices of `X`
(the column window selected by `X.Slice(0, nSamples, 0, nInformative)`). -/
def mrInfEmbed (kw : MakeRegressionKwargs α) :
    Fin (mrNInformative kw) → Fin (mrNFeatures kw) :=
  fun j => ⟨j.val, by
    have h2 := j.2
    simp only [mrNInformative] at h2
    split at h2 <;> omega⟩

/-- `y.Mul(X.Slice(0, nSamples, 0, nInformative), Coef)`: the product of the
first `nInformative` columns of `X` with `Coef`, before the bias switch. -/
def MakeRegressionYBase (kw : MakeRegressionKwargs α) (rnd : ℕ → α) :
    Matrix (Fin (mrNSamples kw)) (Fin (mrNTargets kw)) α :=
  Matrix.of fun i t => ∑ j : Fin (mrNInformative kw),
    MakeRegressionX kw rnd i (mrInfEmbed kw j) * MakeRegressionCoef kw rnd j t

/-- The `y` matrix of `MakeRegression`: the base product plus the bias,
following the Go type switch (`float64` added everywhere, `mat.Matrix` adds
`vv.At(0, yj)`, `[]float64` adds `vv[yj]`; no `bias` kwarg adds nothing). -/
def MakeRegressionY (kw : MakeRegressionKwargs α) (rnd : ℕ → α) :
    Matrix (Fin (mrNSamples kw)) (Fin (mrNTargets kw)) α :=
  match kw.bias with
  | none => MakeRegressionYBase kw rnd
  | some (BiasKwarg.scalar b) =>
    Matrix.of fun i t => MakeRegressionYBase kw rnd i t + b
  | some (BiasKwarg.matrixB B) =>
    Matrix.of fun i t => MakeRegressionYBase kw rnd i t + B 0 t.val
  | some (BiasKwarg.vector v) =>
    Matrix.of fun i t => MakeRegressionYBase kw rnd i t + v t.val

end MakeRegressionModel

section ConcreteFixtures

/-- A concrete `1 × 1` gradient used to evaluate the model at a point. -/
def oneGrad : Matrix (Fin 1) (Fin 1) ℚ := Matrix.of fun _ _ => 1

/-- A concrete plain-SGD optimizer (no variant flag, no momentum,
unit step size) used to evaluate `GetUpdate` at a point. -/
def sgdPlainOpt : SGDOptimizer ℚ 1 1 :=
  { NewSGDOptimizer with Momentum := 0, StepSize := 1 }

/-- A single-column result set whose only column reports
`optimize.Failure`, used to evaluate the per-output `LinFitGOM` path. -/
def failingColRes : Fin 1 → GonumColResult ℚ 1 := fun _ =>
  { ret := { X := fun _ => 0, F := 0, FuncEvaluations := 3,
             Status := GonumStatus.Failure },
    errNonNil := true }

/-- A concrete (degenerate but well-typed) collaborator environment for
evaluating `LinFit` at a point: one sample, one feature, one output, a
stateless solver and zero loss. -/
def trivEnv : LinFitEnv ℚ Unit 1 1 1 :=
  { solver0 := ()
    setTheta := fun _ _ => ()
    updateParams := fun _ _ => ()
    getTheta := fun _ => 0
    shuffle := fun _ => Equiv.refl _
    loss := fun _ _ _ _ _ _ _ => (0, 0, 0)
    mse := fun _ _ => 0
    sqrt := fun x => x }

/-- Concrete options for evaluating `LinFit` at a point. -/
def trivOpts : LinFitOptions ℚ :=
  { Epochs := 1, MiniBatchSize := 1, Tol := 1, Alpha := 0, L1Ratio := 0 }

/-- Concrete `MakeRegression` kwargs without a bias entry. -/
def kwNoBias : MakeRegressionKwargs ℚ :=
  { n_samples := some 2, n_features := some 3, n_informative := some 2,
    n_targets := some 1, bias := none }

/-- Concrete `MakeRegression` kwargs with a scalar bias entry. -/
def kwScalarBias : MakeRegressionKwargs ℚ :=
  { kwNoBias with bias := some (BiasKwarg.scalar 5) }

end ConcreteFixtures

section OptimizerTheorems

variable {α : Type} [LinearOrderedField α] {nF nO : ℕ}

theorem sgdAlloc_TimeStep (s : SGDOptimizer α nF nO) :
    (sgdAlloc s).TimeStep = s.TimeStep := by
  unfold sgdAlloc; split <;> rfl

theorem sgdAlloc_Theta (s : SGDOptimizer α nF nO) :
    (sgdAlloc s).Theta = s.Theta := by
  unfold sgdAlloc; split <;> rfl

theorem GetUpdate_snd_TimeStep (sqrt : α → α) (s : SGDOptimizer α nF nO)
    (grad : Matrix (Fin nF) (Fin nO) α) :
    (GetUpdate sqrt s grad).2.TimeStep = s.TimeStep + 1 := by
  simp only [GetUpdate, momentumFinish]
  split_ifs <;> simp [sgdAlloc_TimeStep]

theorem GetUpdate_snd_Theta (sqrt : α → α) (s : SGDOptimizer α nF nO)
    (grad : Matrix (Fin nF) (Fin nO) α) :
    (GetUpdate sqrt s grad).2.Theta = s.Theta := by
  simp only [GetUpdate, momentumFinish]
  split_ifs <;> simp [sgdAlloc_Theta]

theorem UpdateParams_TimeStep (sqrt : α → α) (s : SGDOptimizer α nF nO)
    (grad : Matrix (Fin nF) (Fin nO) α) :
    (UpdateParams sqrt s grad).TimeStep = s.TimeStep + 1 := by
  simp only [UpdateParams]
  exact GetUpdate_snd_TimeStep sqrt s grad

theorem applyUpdates_TimeStep (sqrt : α → α)
    (gs : List (Matrix (Fin nF) (Fin nO) α)) :
    ∀ s : SGDOptimizer α nF nO,
      (applyUpdates sqrt s gs).TimeStep = s.TimeStep + gs.length := by
  induction gs with
  | nil => intro s; rfl
  | cons g gs ih =>
    intro s
    have h1 : applyUpdates sqrt s (g :: gs) =
        applyUpdates sqrt (UpdateParams sqrt s g) gs := rfl
    rw [h1, ih, UpdateParams_TimeStep]
    simp [List.length_cons]
    omega

/-- Claim C7: for every variant configuration, each `UpdateParams` call
advances `TimeStep` by exactly one (so it is never decremented), and after
`N` update calls on a freshly constructed rule (`TimeStep = 0`),
`GetTimeStep` returns exactly `N`. -/
theorem timestep_counts_updates (sqrt : α → α) :
    (∀ (s : SGDOptimizer α nF nO) grad,
      (UpdateParams sqrt s grad).TimeStep = s.TimeStep + 1) ∧
    (∀ (s : SGDOptimizer α nF nO)
      (gs : List (Matrix (Fin nF) (Fin nO) α)), s.TimeStep = 0 →
      GetTimeStep (applyUpdates sqrt s gs) = gs.length) := by
  refine ⟨fun s grad => UpdateParams_TimeStep sqrt s grad, fun s gs h0 => ?_⟩
  unfold GetTimeStep
  rw [applyUpdates_TimeStep, h0, Nat.zero_add]

theorem timestep_counts_updates_witness :
    (NewAdamOptimizer : SGDOptimizer ℚ 1 1).TimeStep = 0 ∧
    GetTimeStep (applyUpdates (fun x => x)
      (NewAdamOptimizer : SGDOptimizer ℚ 1 1) [oneGrad, oneGrad]) = 2 :=
  ⟨rfl, (timestep_counts_updates (fun x => x)).2 _ [oneGrad, oneGrad] rfl⟩

/-- Claim C3, counterexample: `GetUpdate` is not read-only.  For a concrete
plain-SGD optimizer and gradient, one call advances `TimeStep`, and a second
call with the same gradient returns a different update matrix. -/
theorem getUpdate_not_readonly_counterexample :
    (GetUpdate (fun x => x) sgdPlainOpt oneGrad).2.TimeStep ≠
      sgdPlainOpt.TimeStep ∧
    (GetUpdate (fun x => x)
        ((GetUpdate (fun x => x) sgdPlainOpt oneGrad).2) oneGrad).1 ≠
      (GetUpdate (fun x => x) sgdPlainOpt oneGrad).1 := by
  constructor
  · rw [GetUpdate_snd_TimeStep]
    decide
  · intro h
    have h00 := congrFun (congrFun h 0) 0
    norm_num [GetUpdate, sgdAlloc, momentumFinish, sgdPlainOpt,
      NewSGDOptimizer, oneGrad, gradientClipped, colNorm] at h00

/-- Claim C3, amended: `GetUpdate` leaves `Theta` untouched, but it is not
read-only with respect to the optimizer state — every call advances
`TimeStep` by exactly one (and updates the variant accumulators), so two
successive `GetUpdate` calls with the same gradient need not agree. -/
theorem getUpdate_theta_untouched_but_stateful (sqrt : α → α)
    (s : SGDOptimizer α nF nO) (grad : Matrix (Fin nF) (Fin nO) α) :
    (GetUpdate sqrt s grad).2.Theta = s.Theta ∧
    (GetUpdate sqrt s grad).2.TimeStep = s.TimeStep + 1 :=
  ⟨GetUpdate_snd_Theta sqrt s grad, GetUpdate_snd_TimeStep sqrt s grad⟩

theorem sgdAlloc_StepSize (s : SGDOptimizer α nF nO) :
    (sgdAlloc s).StepSize = s.StepSize := by
  unfold sgdAlloc; split <;> rfl

theorem sgdAlloc_Momentum (s : SGDOptimizer α nF nO) :
    (sgdAlloc s).Momentum = s.Momentum := by
  unfold sgdAlloc; split <;> rfl

theorem sgdAlloc_GradientClipping (s : SGDOptimizer α nF nO) :
    (sgdAlloc s).GradientClipping = s.GradientClipping := by
  unfold sgdAlloc; split <;> rfl

theorem sgdAlloc_Epsilon (s : SGDOptimizer α nF nO) :
    (sgdAlloc s).Epsilon = s.Epsilon := by
  unfold sgdAlloc; split <;> rfl

theorem sgdAlloc_Beta1 (s : SGDOptimizer α nF nO) :
    (sgdAlloc s).Beta1 = s.Beta1 := by
  unfold sgdAlloc; split <;> rfl

theorem sgdAlloc_Beta2 (s : SGDOptimizer α nF nO) :
    (sgdAlloc s).Beta2 = s.Beta2 := by
  unfold sgdAlloc; split <;> rfl

theorem sgdAlloc_Adam (s : SGDOptimizer α nF nO) :
    (sgdAlloc s).Adam = s.Adam := by
  unfold sgdAlloc; split <;> rfl

theorem sgdAlloc_RMSProp (s : SGDOptimizer α nF nO) :
    (sgdAlloc s).RMSProp = s.RMSProp := by
  unfold sgdAlloc; split <;> rfl

theorem sgdAlloc_Adagrad (s : SGDOptimizer α nF nO) :
    (sgdAlloc s).Adagrad = s.Adagrad := by
  unfold sgdAlloc; split <;> rfl

theorem sgdAlloc_Adadelta (s : SGDOptimizer α nF nO) :
    (sgdAlloc s).Adadelta = s.Adadelta := by
  unfold sgdAlloc; split <;> rfl

/-- Claim C6: with the Adam variant active (and no momentum blend, which the
code applies only when `Momentum > 0`), one update call computes, elementwise
on the clipped gradient, the biased moments
`Mt = β1·Mt + (1-β1)·g'` and `Vt = β2·Vt + (1-β2)·g'²`, the bias-corrected
`Mtcap = Mt/(1-β1^t)` and `Vtcap = Vt/(1-β2^t)` with `t` the post-increment
`TimeStep`, and the update `-stepSize·Mtcap/(sqrt(Vtcap)+ε)`.  The previous
moments are those after the lazy first-call allocation (`sgdAlloc`), i.e.
zero on the first call and the accumulated values afterwards. -/
theorem adam_update_formulas (sqrt : α → α) (s : SGDOptimizer α nF nO)
    (grad : Matrix (Fin nF) (Fin nO) α) (hAdam : s.Adam = true)
    (hR : s.RMSProp = false) (hG : s.Adagrad = false)
    (hD : s.Adadelta = false) (hM : s.Momentum ≤ 0) :
    (GetUpdate sqrt s grad).2.TimeStep = s.TimeStep + 1 ∧
    (∀ j o, (GetUpdate sqrt s grad).2.Mt j o =
      s.Beta1 * (sgdAlloc s).Mt j o +
        (1 - s.Beta1) * gradientClipped s.GradientClipping sqrt grad j o) ∧
    (∀ j o, (GetUpdate sqrt s grad).2.Vt j o =
      s.Beta2 * (sgdAlloc s).Vt j o +
        (1 - s.Beta2) * gradientClipped s.GradientClipping sqrt grad j o *
          gradientClipped s.GradientClipping sqrt grad j o) ∧
    (∀ j o, (GetUpdate sqrt s grad).2.Mtcap j o =
      1 / (1 - s.Beta1 ^ (s.TimeStep + 1)) * (GetUpdate sqrt s grad).2.Mt j o) ∧
    (∀ j o, (GetUpdate sqrt s grad).2.Vtcap j o =
      1 / (1 - s.Beta2 ^ (s.TimeStep + 1)) * (GetUpdate sqrt s grad).2.Vt j o) ∧
    (∀ j o, (GetUpdate sqrt s grad).1 j o =
      -s.StepSize * (GetUpdate sqrt s grad).2.Mtcap j o /
        (sqrt ((GetUpdate sqrt s grad).2.Vtcap j o) + s.Epsilon)) := by
  have hM' : ¬ (0 < s.Momentum) := not_lt.mpr hM
  refine ⟨GetUpdate_snd_TimeStep sqrt s grad, ?_, ?_, ?_, ?_, ?_⟩ <;>
    intro j o <;>
    simp [GetUpdate, momentumFinish, sgdAlloc_RMSProp, sgdAlloc_Adagrad,
      sgdAlloc_Adadelta, sgdAlloc_Adam, sgdAlloc_Momentum, sgdAlloc_TimeStep,
      sgdAlloc_Beta1, sgdAlloc_Beta2, sgdAlloc_StepSize, sgdAlloc_Epsilon,
      sgdAlloc_GradientClipping, hAdam, hR, hG, hD, hM']

theorem adam_update_formulas_witness :
    (NewAdamOptimizer : SGDOptimizer ℚ 1 1).Momentum ≤ 0 ∧
    (∀ j o, (GetUpdate (fun x => x)
        (NewAdamOptimizer : SGDOptimizer ℚ 1 1) oneGrad).2.Mt j o =
      (NewAdamOptimizer : SGDOptimizer ℚ 1 1).Beta1 *
          (sgdAlloc (NewAdamOptimizer : SGDOptimizer ℚ 1 1)).Mt j o +
        (1 - (NewAdamOptimizer : SGDOptimizer ℚ 1 1).Beta1) *
          gradientClipped
            (NewAdamOptimizer : SGDOptimizer ℚ 1 1).GradientClipping
            (fun x => x) oneGrad j o) :=
  ⟨le_refl 0,
    (adam_update_formulas (fun x => x) NewAdamOptimizer oneGrad
      rfl rfl rfl rfl (le_refl 0)).2.1⟩

/-- Claim C4: for every gradient and output column, the clipped gradient
column used by the variant computations has L2 norm at most
`GradientClipping` whenever clipping is enabled (`GradientClipping > 0`),
and equals the original gradient exactly when clipping is disabled
(`GradientClipping <= 0`). -/
theorem gradientClipped_norm_bound {nF nO : ℕ}
    (grad : Matrix (Fin nF) (Fin nO) ℝ) (c : ℝ) (o : Fin nO) :
    (0 < c →
      colNorm Real.sqrt (Matrix.of (gradientClipped c Real.sqrt grad)) o ≤ c) ∧
    (c ≤ 0 → ∀ j o', gradientClipped c Real.sqrt grad j o' = grad j o') := by
  constructor
  · intro hc
    by_cases hbig : c < colNorm Real.sqrt grad o
    · have hnormpos : 0 < colNorm Real.sqrt grad o := lt_trans hc hbig
      have hentry : ∀ j, gradientClipped c Real.sqrt grad j o =
          grad j o * (c / colNorm Real.sqrt grad o) := fun j => by
        unfold gradientClipped
        rw [if_pos ⟨hc, hbig⟩]
      have hsum : (∑ j : Fin nF,
          (Matrix.of (gradientClipped c Real.sqrt grad)) j o *
            (Matrix.of (gradientClipped c Real.sqrt grad)) j o) =
          (c / colNorm Real.sqrt grad o) ^ 2 *
            ∑ j : Fin nF, grad j o * grad j o := by
        simp only [Matrix.of_apply, hentry]
        rw [Finset.sum_congr rfl
          (fun j _ => by ring_nf :
            ∀ j ∈ Finset.univ,
              grad j o * (c / colNorm Real.sqrt grad o) *
                (grad j o * (c / colNorm Real.sqrt grad o)) =
              (c / colNorm Real.sqrt grad o) ^ 2 * (grad j o * grad j o)),
          ← Finset.mul_sum]
      unfold colNorm
      rw [hsum, Real.sqrt_mul (sq_nonneg _), Real.sqrt_sq_eq_abs,
        abs_of_pos (div_pos hc hnormpos)]
      have hS : Real.sqrt (∑ j : Fin nF, grad j o * grad j o) =
          colNorm Real.sqrt grad o := rfl
      rw [hS, div_mul_cancel₀ c (ne_of_gt hnormpos)]
    · have hentry : ∀ j, gradientClipped c Real.sqrt grad j o = grad j o :=
        fun j => by
          unfold gradientClipped
          rw [if_neg]
          rintro ⟨_, h2⟩
          exact hbig h2
      have heq : colNorm Real.sqrt
          (Matrix.of (gradientClipped c Real.sqrt grad)) o =
          colNorm Real.sqrt grad o := by
        unfold colNorm
        congr 1
        exact Finset.sum_congr rfl fun j _ => by rw [Matrix.of_apply, hentry]
      rw [heq]
      exact not_lt.mp hbig
  · intro hc j o'
    unfold gradientClipped
    rw [if_neg]
    rintro ⟨h1, _⟩
    exact absurd h1 (not_lt.mpr hc)

theorem gradientClipped_norm_bound_witness :
    (0 : ℝ) < 1 ∧
    colNorm Real.sqrt
      (Matrix.of (gradientClipped 1 Real.sqrt (0 : Matrix (Fin 1) (Fin 1) ℝ)))
      0 ≤ 1 ∧
    (∀ j o', gradientClipped (0 : ℝ) Real.sqrt
      (0 : Matrix (Fin 1) (Fin 1) ℝ) j o' = (0 : Matrix (Fin 1) (Fin 1) ℝ) j o') :=
  ⟨one_pos, (gradientClipped_norm_bound 0 1 0).1 one_pos,
    fun j o' => (gradientClipped_norm_bound 0 0 0).2 le_rfl j o'⟩

end OptimizerTheorems

section OptionAndGomTheorems

/-- Claim C8: when the caller leaves the epoch budget unset (non-positive)
it defaults to `1e6/nSamples` (integer division); an unset mini-batch size
defaults to `clamp(sqrt(nSamples), 1, 100)`; a caller-supplied mini-batch
size is clamped to at least 1 and at most `nSamples`. -/
theorem linfit_option_defaults (nS : ℕ) (e m : ℤ) :
    (e ≤ 0 → effectiveEpochs nS e = ((1000000 / nS : ℕ) : ℤ)) ∧
    (m ≤ 0 → effectiveMiniBatch nS m = max 1 (min 100 (Nat.sqrt nS))) ∧
    (0 < m → effectiveMiniBatch nS m = (max 1 (min (nS : ℤ) m)).toNat) := by
  refine ⟨fun h => ?_, fun h => ?_, fun h => ?_⟩
  · unfold effectiveEpochs
    rw [if_pos h]
  · have hs : Nat.sqrt nS ≤ nS := Nat.sqrt_le_self nS
    simp only [effectiveMiniBatch, defaultMiniBatch, not_lt.mpr h, if_neg,
      if_false]
    omega
  · simp only [effectiveMiniBatch, if_pos h]

theorem linfit_option_defaults_witness :
    effectiveEpochs 100 0 = ((1000000 / 100 : ℕ) : ℤ) ∧
    effectiveMiniBatch 100 0 = max 1 (min 100 (Nat.sqrt 100)) ∧
    effectiveMiniBatch 100 5 = (max 1 (min (100 : ℤ) 5)).toNat :=
  ⟨(linfit_option_defaults 100 0 0).1 (by decide),
   (linfit_option_defaults 100 0 0).2.1 (by decide),
   (linfit_option_defaults 100 0 5).2.2 (by decide)⟩

/-- Claim C5 (code evaluation at the failing input): in the per-output
concurrent path of `LinFitGOM`, even when the only column's minimizer
reports `Failure` — so the per-column conjunction the spec describes is
`false` — the returned `Converged` field is `true`, because the folded flag
is overwritten by the trailing `converged = err == nil` with the outer `err`
never assigned on this path. -/
theorem gom_per_output_converged_despite_failure :
    (LinFitGOMPerOutput (fun x => x) failingColRes (Equiv.refl (Fin 1))
      (0 : Matrix (Fin 1) (Fin 1) ℚ)).Converged = true ∧
    gomConvergedAnd failingColRes = false := by
  constructor
  · rfl
  · rfl

end OptionAndGomTheorems

section MakeRegressionTheorems

/-- Claim C9: `MakeRegression` clamps the informative-feature count to
`min(n_informative, n_features)`, and the generated `y` is the matrix
product of the first `nInformative` columns of `X` with `Coef`, plus the
bias added elementwise to each row — a scalar bias everywhere, and a
per-target value for a matrix (row 0) or vector bias.  The shapes
`X : nSamples×nFeatures`, `y : nSamples×nTargets` and
`Coef : nInformative×nTargets` are the types of the model's matrices. -/
theorem makeRegression_spec {α : Type} [LinearOrderedField α]
    (kw : MakeRegressionKwargs α) (rnd : ℕ → α) :
    mrNInformative kw = min (mrNInformative0 kw) (mrNFeatures kw) ∧
    (kw.bias = none → MakeRegressionY kw rnd =
      (MakeRegressionX kw rnd).submatrix id (mrInfEmbed kw) *
        MakeRegressionCoef kw rnd) ∧
    (∀ b, kw.bias = some (BiasKwarg.scalar b) → ∀ i t,
      MakeRegressionY kw rnd i t =
        ((MakeRegressionX kw rnd).submatrix id (mrInfEmbed kw) *
          MakeRegressionCoef kw rnd) i t + b) ∧
    (∀ B, kw.bias = some (BiasKwarg.matrixB B) → ∀ i t,
      MakeRegressionY kw rnd i t =
        ((MakeRegressionX kw rnd).submatrix id (mrInfEmbed kw) *
          MakeRegressionCoef kw rnd) i t + B 0 t.val) ∧
    (∀ v, kw.bias = some (BiasKwarg.vector v) → ∀ i t,
      MakeRegressionY kw rnd i t =
        ((MakeRegressionX kw rnd).submatrix id (mrInfEmbed kw) *
          MakeRegressionCoef kw rnd) i t + v t.val) := by
  have hYB : ∀ i t, MakeRegressionYBase kw rnd i t =
      ((MakeRegressionX kw rnd).submatrix id (mrInfEmbed kw) *
        MakeRegressionCoef kw rnd) i t := by
    intro i t
    simp [MakeRegressionYBase, Matrix.mul_apply, Matrix.submatrix_apply]
  refine ⟨?_, fun h => ?_, fun b h i t => ?_, fun B h i t => ?_,
    fun v h i t => ?_⟩
  · unfold mrNInformative
    split <;> omega
  · funext i t
    simp [MakeRegressionY, h, hYB]
  · simp [MakeRegressionY, h, hYB]
  · simp [MakeRegressionY, h, hYB]
  · simp [MakeRegressionY, h, hYB]

theorem makeRegression_spec_witness :
    MakeRegressionY kwNoBias (fun n => (n : ℚ)) =
      (MakeRegressionX kwNoBias (fun n => (n : ℚ))).submatrix id
          (mrInfEmbed kwNoBias) *
        MakeRegressionCoef kwNoBias (fun n => (n : ℚ)) ∧
    (∀ i t, MakeRegressionY kwScalarBias (fun n => (n : ℚ)) i t =
      ((MakeRegressionX kwScalarBias (fun n => (n : ℚ))).submatrix id
          (mrInfEmbed kwScalarBias) *
        MakeRegressionCoef kwScalarBias (fun n => (n : ℚ))) i t + 5) :=
  ⟨(makeRegression_spec kwNoBias (fun n => (n : ℚ))).2.1 rfl,
   fun i t =>
     (makeRegression_spec kwScalarBias (fun n => (n : ℚ))).2.2.1 5 rfl i t⟩

end MakeRegressionTheorems

section LinFitTheorems

variable {α : Type} [LinearOrderedField α] {ς : Type} {nS nF nO : ℕ}
variable (env : LinFitEnv α ς nS nF nO) (opts : LinFitOptions α) (bs : ℕ)

theorem fitLoop_eq_iterate : ∀ (n : ℕ) (st : FitLoopState α ς nS nF nO),
    fitLoop env opts bs st n =
      (epochBody env opts bs)^[stopCount env opts bs st n] st := by
  intro n
  induction n with
  | zero => intro st; rfl
  | succ n ih =>
    intro st
    by_cases h : st.converged = true
    · simp [fitLoop, stopCount, h]
    · have hb : st.converged = false := by
        revert h; cases st.converged <;> simp
      simp only [fitLoop, stopCount, hb, Bool.false_eq_true, if_false]
      rw [ih (epochBody env opts bs st), Function.iterate_succ_apply]

theorem stopCount_le : ∀ (n : ℕ) (st : FitLoopState α ς nS nF nO),
    stopCount env opts bs st n ≤ n := by
  intro n
  induction n with
  | zero => intro st; exact le_refl 0
  | succ n ih =>
    intro st
    by_cases h : st.converged = true
    · simp [stopCount, h]
    · have hb : st.converged = false := by
        revert h; cases st.converged <;> simp
      simp only [stopCount, hb, Bool.false_eq_true, if_false]
      exact Nat.succ_le_succ (ih (epochBody env opts bs st))

theorem stopCount_pos (n : ℕ) (st : FitLoopState α ς nS nF nO)
    (hc : st.converged = false) (hn : 1 ≤ n) :
    1 ≤ stopCount env opts bs st n := by
  obtain ⟨m, rfl⟩ : ∃ m, n = m + 1 := ⟨n - 1, by omega⟩
  simp only [stopCount, hc, Bool.false_eq_true, if_false]
  omega

theorem converged_false_before : ∀ (n : ℕ) (st : FitLoopState α ς nS nF nO)
    (j : ℕ), j < stopCount env opts bs st n →
    ((epochBody env opts bs)^[j] st).converged = false := by
  intro n
  induction n with
  | zero => intro st j h; simp [stopCount] at h
  | succ n ih =>
    intro st j h
    by_cases hc : st.converged = true
    · simp [stopCount, hc] at h
    · have hb : st.converged = false := by
        revert hc; cases st.converged <;> simp
      simp only [stopCount, hb, Bool.false_eq_true, if_false] at h
      cases j with
      | zero => exact hb
      | succ j =>
        rw [Function.iterate_succ_apply]
        exact ih (epochBody env opts bs st) j (by omega)

theorem stopCount_budget_or_converged :
    ∀ (n : ℕ) (st : FitLoopState α ς nS nF nO),
    stopCount env opts bs st n = n ∨
      ((epochBody env opts bs)^[stopCount env opts bs st n] st).converged =
        true := by
  intro n
  induction n with
  | zero => intro st; exact Or.inl rfl
  | succ n ih =>
    intro st
    by_cases hc : st.converged = true
    · right
      simp [stopCount, hc]
    · have hb : st.converged = false := by
        revert hc; cases st.converged <;> simp
      simp only [stopCount, hb, Bool.false_eq_true, if_false]
      rcases ih (epochBody env opts bs st) with h | h
      · exact Or.inl (by omega)
      · right
        rw [Function.iterate_succ_apply]
        exact h

theorem iterate_epoch_counter : ∀ (n : ℕ) (st : FitLoopState α ς nS nF nO),
    ((epochBody env opts bs)^[n] st).epoch = st.epoch + n := by
  intro n
  induction n with
  | zero => intro st; rfl
  | succ n ih =>
    intro st
    rw [Function.iterate_succ_apply, ih]
    have h : (epochBody env opts bs st).epoch = st.epoch + 1 := rfl
    rw [h]
    omega

theorem epochBody_rmse (st : FitLoopState α ς nS nF nO) :
    (epochBody env opts bs st).rmse =
      some (env.sqrt (epochMSE env opts bs st)) := rfl

theorem epochBody_converged (st : FitLoopState α ς nS nF nO) :
    (epochBody env opts bs st).converged =
      decide (env.sqrt (env.sqrt (epochMSE env opts bs st)) < opts.Tol) := rfl

theorem epochBody_JBest_none (st : FitLoopState α ς nS nF nO)
    (hb : st.JBest = none) :
    (epochBody env opts bs st).JBest = some (epochJ env opts bs st) ∧
    (epochBody env opts bs st).thetaBest =
      env.getTheta (epochSolver env opts bs st) := by
  constructor <;> simp [epochBody, hb]

theorem epochBody_JBest_some (st : FitLoopState α ς nS nF nO) (b : α)
    (hb : st.JBest = some b) :
    (epochBody env opts bs st).JBest =
      (if epochJ env opts bs st < b then some (epochJ env opts bs st)
        else st.JBest) ∧
    (epochBody env opts bs st).thetaBest =
      (if epochJ env opts bs st < b then
        env.getTheta (epochSolver env opts bs st)
      else st.thetaBest) := by
  constructor <;> simp [epochBody, hb]

theorem bestJ_invariant (X : Matrix (Fin nS) (Fin nF) α)
    (Y : Matrix (Fin nS) (Fin nO) α) (theta0 : Matrix (Fin nF) (Fin nO) α) :
    ∀ n, 1 ≤ n →
    ∃ j0, 1 ≤ j0 ∧ j0 ≤ n ∧
      ((epochBody env opts bs)^[n] (initialFitState env X Y theta0)).JBest =
        some (epochJ env opts bs
          ((epochBody env opts bs)^[j0 - 1] (initialFitState env X Y theta0))) ∧
      ((epochBody env opts bs)^[n] (initialFitState env X Y theta0)).thetaBest =
        env.getTheta (epochSolver env opts bs
          ((epochBody env opts bs)^[j0 - 1] (initialFitState env X Y theta0))) ∧
      ∀ j, 1 ≤ j → j ≤ n →
        epochJ env opts bs
          ((epochBody env opts bs)^[j0 - 1] (initialFitState env X Y theta0)) ≤
        epochJ env opts bs
          ((epochBody env opts bs)^[j - 1] (initialFitState env X Y theta0)) := by
  intro n
  induction n with
  | zero => intro h; omega
  | succ n ih =>
    intro _
    by_cases hn : 1 ≤ n
    · obtain ⟨j0, hj01, hj0n, hJB, hTB, hmin⟩ := ih hn
      by_cases hlt : epochJ env opts bs
          ((epochBody env opts bs)^[n] (initialFitState env X Y theta0)) <
          epochJ env opts bs
          ((epochBody env opts bs)^[j0 - 1] (initialFitState env X Y theta0))
      · refine ⟨n + 1, by omega, le_refl _, ?_, ?_, ?_⟩
        · rw [Function.iterate_succ_apply',
            (epochBody_JBest_some env opts bs _ _ hJB).1, if_pos hlt]
          congr 1
        · rw [Function.iterate_succ_apply',
            (epochBody_JBest_some env opts bs _ _ hJB).2, if_pos hlt]
          congr 2
        · intro j hj1 hjn
          rcases Nat.lt_or_ge j (n + 1) with hj | hj
          · have hle := hmin j hj1 (by omega)
            simp only [Nat.add_sub_cancel]
            exact le_trans (le_of_lt hlt) hle
          · have hj' : j = n + 1 := by omega
            subst hj'
            simp only [Nat.add_sub_cancel]
            exact le_refl _
      · refine ⟨j0, hj01, by omega, ?_, ?_, ?_⟩
        · rw [Function.iterate_succ_apply',
            (epochBody_JBest_some env opts bs _ _ hJB).1, if_neg hlt]
          exact hJB
        · rw [Function.iterate_succ_apply',
            (epochBody_JBest_some env opts bs _ _ hJB).2, if_neg hlt]
          exact hTB
        · intro j hj1 hjn
          rcases Nat.lt_or_ge j (n + 1) with hj | hj
          · exact hmin j hj1 (by omega)
          · have hj' : j = n + 1 := by omega
            subst hj'
            simp only [Nat.add_sub_cancel]
            exact not_lt.mp hlt
    · have hn0 : n = 0 := by omega
      subst hn0
      have h0 : (initialFitState env X Y theta0).JBest = none := rfl
      refine ⟨1, le_refl 1, le_refl 1, ?_, ?_, ?_⟩
      · rw [Function.iterate_succ_apply', Function.iterate_zero_apply,
          (epochBody_JBest_none env opts bs _ h0).1]
      · rw [Function.iterate_succ_apply', Function.iterate_zero_apply,
          (epochBody_JBest_none env opts bs _ h0).2]
      · intro j hj1 hjn
        have hj : j = 1 := by omega
        subst hj
        exact le_refl _

/-- Claim C2: with a positive (effective) epoch budget, the training loop
executes some number `k ≥ 1` of epochs and stops exactly when the
double-square-root test `sqrt(rmse) < Tol` (with `rmse = sqrt(MSE)` itself)
first passes after a full-dataset evaluation, or when the budget is
exhausted; a `LinFitResult` is always returned, its `Converged` field true
if and only if the test passed on the terminating epoch. -/
theorem LinFit_stops_on_tolerance_or_budget
    (env : LinFitEnv α ς nS nF nO) (X : Matrix (Fin nS) (Fin nF) α)
    (Y : Matrix (Fin nS) (Fin nO) α) (theta0 : Matrix (Fin nF) (Fin nO) α)
    (opts : LinFitOptions α)
    (hE : 1 ≤ (effectiveEpochs nS opts.Epochs).toNat) :
    ∃ k, 1 ≤ k ∧ k ≤ (effectiveEpochs nS opts.Epochs).toNat ∧
      (∀ j, j < k →
        (linFitEpochState env X Y theta0 opts j).converged = false) ∧
      LinFit env X Y theta0 opts =
        mkFitResult (linFitEpochState env X Y theta0 opts k) ∧
      ((linFitEpochState env X Y theta0 opts k).converged = true ∨
        k = (effectiveEpochs nS opts.Epochs).toNat) ∧
      (LinFit env X Y theta0 opts).Epoch = k + 1 ∧
      (LinFit env X Y theta0 opts).RMSE =
        some (env.sqrt (epochMSE env opts
          (effectiveMiniBatch nS opts.MiniBatchSize)
          (linFitEpochState env X Y theta0 opts (k - 1)))) ∧
      ((LinFit env X Y theta0 opts).Converged = true ↔
        env.sqrt (env.sqrt (epochMSE env opts
          (effectiveMiniBatch nS opts.MiniBatchSize)
          (linFitEpochState env X Y theta0 opts (k - 1)))) < opts.Tol) := by
  have h0 : (initialFitState env X Y theta0).converged = false := rfl
  have hk1 : 1 ≤ stopCount env opts (effectiveMiniBatch nS opts.MiniBatchSize)
      (initialFitState env X Y theta0) (effectiveEpochs nS opts.Epochs).toNat :=
    stopCount_pos env opts _ _ _ h0 hE
  have hkE := stopCount_le env opts (effectiveMiniBatch nS opts.MiniBatchSize)
    (effectiveEpochs nS opts.Epochs).toNat (initialFitState env X Y theta0)
  have hLF : LinFit env X Y theta0 opts = mkFitResult
      ((epochBody env opts (effectiveMiniBatch nS opts.MiniBatchSize))^[
        stopCount env opts (effectiveMiniBatch nS opts.MiniBatchSize)
          (initialFitState env X Y theta0)
          (effectiveEpochs nS opts.Epochs).toNat]
        (initialFitState env X Y theta0)) := by
    simp only [LinFit]
    rw [fitLoop_eq_iterate]
  refine ⟨stopCount env opts (effectiveMiniBatch nS opts.MiniBatchSize)
    (initialFitState env X Y theta0) (effectiveEpochs nS opts.Epochs).toNat,
    hk1, hkE, ?_, ?_, ?_, ?_, ?_, ?_⟩
  · intro j hj
    exact converged_false_before env opts _ _ _ j hj
  · exact hLF
  · rcases stopCount_budget_or_converged env opts
      (effectiveMiniBatch nS opts.MiniBatchSize)
      (effectiveEpochs nS opts.Epochs).toNat
      (initialFitState env X Y theta0) with h | h
    · exact Or.inr h
    · exact Or.inl h
  · rw [hLF]
    show ((epochBody env opts (effectiveMiniBatch nS opts.MiniBatchSize))^[_]
      (initialFitState env X Y theta0)).epoch = _
    rw [iterate_epoch_counter]
    show 1 + _ = _ + 1
    omega
  · rw [hLF]
    show ((epochBody env opts (effectiveMiniBatch nS opts.MiniBatchSize))^[
      stopCount env opts (effectiveMiniBatch nS opts.MiniBatchSize)
        (initialFitState env X Y theta0)
        (effectiveEpochs nS opts.Epochs).toNat]
      (initialFitState env X Y theta0)).rmse = _
    have hksucc : stopCount env opts (effectiveMiniBatch nS opts.MiniBatchSize)
        (initialFitState env X Y theta0)
        (effectiveEpochs nS opts.Epochs).toNat =
        (stopCount env opts (effectiveMiniBatch nS opts.MiniBatchSize)
          (initialFitState env X Y theta0)
          (effectiveEpochs nS opts.Epochs).toNat - 1) + 1 := by omega
    rw [hksucc, Function.iterate_succ_apply']
    exact epochBody_rmse env opts _ _
  · rw [hLF]
    show (((epochBody env opts (effectiveMiniBatch nS opts.MiniBatchSize))^[
      stopCount env opts (effectiveMiniBatch nS opts.MiniBatchSize)
        (initialFitState env X Y theta0)
        (effectiveEpochs nS opts.Epochs).toNat]
      (initialFitState env X Y theta0)).converged = true ↔ _)
    have hksucc : stopCount env opts (effectiveMiniBatch nS opts.MiniBatchSize)
        (initialFitState env X Y theta0)
        (effectiveEpochs nS opts.Epochs).toNat =
        (stopCount env opts (effectiveMiniBatch nS opts.MiniBatchSize)
          (initialFitState env X Y theta0)
          (effectiveEpochs nS opts.Epochs).toNat - 1) + 1 := by omega
    rw [hksucc, Function.iterate_succ_apply', epochBody_converged]
    exact decide_eq_true_iff

theorem LinFit_stops_on_tolerance_or_budget_witness :
    ∃ k, 1 ≤ k ∧ k ≤ (effectiveEpochs 1 trivOpts.Epochs).toNat ∧
      (∀ j, j < k →
        (linFitEpochState trivEnv 0 0 0 trivOpts j).converged = false) ∧
      LinFit trivEnv 0 0 0 trivOpts =
        mkFitResult (linFitEpochState trivEnv 0 0 0 trivOpts k) ∧
      ((linFitEpochState trivEnv 0 0 0 trivOpts k).converged = true ∨
        k = (effectiveEpochs 1 trivOpts.Epochs).toNat) ∧
      (LinFit trivEnv 0 0 0 trivOpts).Epoch = k + 1 ∧
      (LinFit trivEnv 0 0 0 trivOpts).RMSE =
        some (trivEnv.sqrt (epochMSE trivEnv trivOpts
          (effectiveMiniBatch 1 trivOpts.MiniBatchSize)
          (linFitEpochState trivEnv 0 0 0 trivOpts (k - 1)))) ∧
      ((LinFit trivEnv 0 0 0 trivOpts).Converged = true ↔
        trivEnv.sqrt (trivEnv.sqrt (epochMSE trivEnv trivOpts
          (effectiveMiniBatch 1 trivOpts.MiniBatchSize)
          (linFitEpochState trivEnv 0 0 0 trivOpts (k - 1)))) <
          trivOpts.Tol) :=
  LinFit_stops_on_tolerance_or_budget trivEnv 0 0 0 trivOpts (by decide)

/-- Claim C1: with a positive (effective) epoch budget, the result of a
`LinFit` run carries, in `J`, the minimum full-dataset objective observed
over the `k` executed epochs, and, in `Theta`, the snapshot of the solver's
parameter matrix taken right after the epoch achieving that minimum (the
`copy(thetaSliceBest, thetaSlice)` made whenever `J` improved on the
best-seen value) — not necessarily the final-epoch Theta. -/
theorem LinFit_returns_best_snapshot
    (env : LinFitEnv α ς nS nF nO) (X : Matrix (Fin nS) (Fin nF) α)
    (Y : Matrix (Fin nS) (Fin nO) α) (theta0 : Matrix (Fin nF) (Fin nO) α)
    (opts : LinFitOptions α)
    (hE : 1 ≤ (effectiveEpochs nS opts.Epochs).toNat) :
    ∃ k j0, 1 ≤ k ∧ k ≤ (effectiveEpochs nS opts.Epochs).toNat ∧
      1 ≤ j0 ∧ j0 ≤ k ∧
      LinFit env X Y theta0 opts =
        mkFitResult (linFitEpochState env X Y theta0 opts k) ∧
      (LinFit env X Y theta0 opts).J =
        some (epochJ env opts (effectiveMiniBatch nS opts.MiniBatchSize)
          (linFitEpochState env X Y theta0 opts (j0 - 1))) ∧
      (LinFit env X Y theta0 opts).Theta =
        env.getTheta (epochSolver env opts
          (effectiveMiniBatch nS opts.MiniBatchSize)
          (linFitEpochState env X Y theta0 opts (j0 - 1))) ∧
      ∀ j, 1 ≤ j → j ≤ k →
        epochJ env opts (effectiveMiniBatch nS opts.MiniBatchSize)
          (linFitEpochState env X Y theta0 opts (j0 - 1)) ≤
        epochJ env opts (effectiveMiniBatch nS opts.MiniBatchSize)
          (linFitEpochState env X Y theta0 opts (j - 1)) := by
  have h0 : (initialFitState env X Y theta0).converged = false := rfl
  have hk1 : 1 ≤ stopCount env opts (effectiveMiniBatch nS opts.MiniBatchSize)
      (initialFitState env X Y theta0) (effectiveEpochs nS opts.Epochs).toNat :=
    stopCount_pos env opts _ _ _ h0 hE
  have hkE := stopCount_le env opts (effectiveMiniBatch nS opts.MiniBatchSize)
    (effectiveEpochs nS opts.Epochs).toNat (initialFitState env X Y theta0)
  have hLF : LinFit env X Y theta0 opts = mkFitResult
      ((epochBody env opts (effectiveMiniBatch nS opts.MiniBatchSize))^[
        stopCount env opts (effectiveMiniBatch nS opts.MiniBatchSize)
          (initialFitState env X Y theta0)
          (effectiveEpochs nS opts.Epochs).toNat]
        (initialFitState env X Y theta0)) := by
    simp only [LinFit]
    rw [fitLoop_eq_iterate]
  obtain ⟨j0, hj01, hj0k, hJB, hTB, hmin⟩ :=
    bestJ_invariant env opts (effectiveMiniBatch nS opts.MiniBatchSize)
      X Y theta0
      (stopCount env opts (effectiveMiniBatch nS opts.MiniBatchSize)
        (initialFitState env X Y theta0)
        (effectiveEpochs nS opts.Epochs).toNat) hk1
  refine ⟨stopCount env opts (effectiveMiniBatch nS opts.MiniBatchSize)
    (initialFitState env X Y theta0) (effectiveEpochs nS opts.Epochs).toNat,
    j0, hk1, hkE, hj01, hj0k, hLF, ?_, ?_, ?_⟩
  · rw [hLF]
    exact hJB
  · rw [hLF]
    exact hTB
  · intro j hj1 hjk
    exact hmin j hj1 hjk

theorem LinFit_returns_best_snapshot_witness :
    ∃ k j0, 1 ≤ k ∧ k ≤ (effectiveEpochs 1 trivOpts.Epochs).toNat ∧
      1 ≤ j0 ∧ j0 ≤ k ∧
      LinFit trivEnv 0 0 0 trivOpts =
        mkFitResult (linFitEpochState trivEnv 0 0 0 trivOpts k) ∧
      (LinFit trivEnv 0 0 0 trivOpts).J =
        some (epochJ trivEnv trivOpts
          (effectiveMiniBatch 1 trivOpts.MiniBatchSize)
          (linFitEpochState trivEnv 0 0 0 trivOpts (j0 - 1))) ∧
      (LinFit trivEnv 0 0 0 trivOpts).Theta =
        trivEnv.getTheta (epochSolver trivEnv trivOpts
          (effectiveMiniBatch 1 trivOpts.MiniBatchSize)
          (linFitEpochState trivEnv 0 0 0 trivOpts (j0 - 1))) ∧
      ∀ j, 1 ≤ j → j ≤ k →
        epochJ trivEnv trivOpts (effectiveMiniBatch 1 trivOpts.MiniBatchSize)
          (linFitEpochState trivEnv 0 0 0 trivOpts (j0 - 1)) ≤
        epochJ trivEnv trivOpts (effectiveMiniBatch 1 trivOpts.MiniBatchSize)
          (linFitEpochState trivEnv 0 0 0 trivOpts (j - 1)) :=
  LinFit_returns_best_snapshot trivEnv 0 0 0 trivOpts (by decide)

end LinFitTheorems
